import Mathlib

/-!
# Verification of the cell-finder estimation engine

Shallow embedding, over the real numbers, of the geolocation estimation
engine implemented in `src/server/server.py`: the log-distance path-loss
model (`_rssi_to_distance_m`), the equirectangular planar projection
(`_ll_to_xy_m` / `_xy_to_ll`), the two-circle intersector
(`_circle_intersections`), the Gauss–Newton weighted-least-squares solver
(`_wls_trilateration`), the MAD-based robust estimator
(`_robust_trilateration`), the power-weighted centroid fallback
(`centroid_estimate`), the intersection-voting `accum` stage, and the
per-transmitter method dispatch of the `cell_map` route.

Python floats are modelled as real numbers; Python `None` results are
modelled with `Option`.  Leading underscores of the Python names are
dropped (Lean identifiers may not start with `_`).
-/

namespace CellFinder

/-- One usable observation for a single transmitter: the `{lat, lon, rssi}`
dictionaries that `cell_map` collects into `by_cell[cell_id]["logs"]`
(rows with non-null lat/lon and numeric RSSI). -/
structure Obs where
  lat : ℝ
  lon : ℝ
  rssi : ℝ

/-- `_rssi_to_distance_m(rssi_dbm, n, ref_rssi_dbm, ref_dist_m)`:
log-distance path-loss model `d = ref_dist_m * 10^((ref_rssi_dbm - rssi_dbm)/(10 n))`
with `n` clamped to `≥ 0.1` and the result clipped to `[1, 50000]` metres. -/
noncomputable def rssi_to_distance_m (rssi_dbm n ref_rssi_dbm ref_dist_m : ℝ) : ℝ :=
  let n' := max n 0.1
  let d := ref_dist_m * (10 : ℝ) ^ ((ref_rssi_dbm - rssi_dbm) / (10 * n'))
  max 1 (min d 50000)

/-- `_ll_to_xy_m(lat, lon, lat0, lon0)`: equirectangular projection onto the
local tangent plane at `(lat0, lon0)`, Earth radius 6 371 000 m. -/
noncomputable def ll_to_xy_m (lat lon lat0 lon0 : ℝ) : ℝ × ℝ :=
  let R : ℝ := 6371000
  let rad : ℝ := Real.pi / 180
  (R * Real.cos (lat0 * rad) * (lon - lon0) * rad, R * (lat - lat0) * rad)

/-- `_xy_to_ll(x, y, lat0, lon0)`: inverse of `ll_to_xy_m`. -/
noncomputable def xy_to_ll (x y lat0 lon0 : ℝ) : ℝ × ℝ :=
  let R : ℝ := 6371000
  let deg : ℝ := 180 / Real.pi
  (y / R * deg + lat0, x / (R * Real.cos (lat0 * Real.pi / 180)) * deg + lon0)

/-- `_circle_intersections(x0, y0, r0, x1, y1, r1)`: intersection points of
two circles (at most two), each carrying the crossing-angle weight
`w = clamp(h / max(1e-6, min r0 r1), 0, 1)`.  `math.hypot dx dy` is
`Real.sqrt (dx^2 + dy^2)`. -/
noncomputable def circle_intersections (x0 y0 r0 x1 y1 r1 : ℝ) : List (ℝ × ℝ × ℝ) :=
  let dx := x1 - x0
  let dy := y1 - y0
  let d := Real.sqrt (dx ^ 2 + dy ^ 2)
  if d ≤ 1e-6 ∨ d > r0 + r1 ∨ d < |r0 - r1| then []
  else
    let a := (r0 * r0 - r1 * r1 + d * d) / (2 * d)
    let h2 := r0 * r0 - a * a
    let h2' := if h2 < 0 then 0 else h2
    let h := Real.sqrt h2'
    let xm := x0 + a * dx / d
    let ym := y0 + a * dy / d
    let rx := -dy * (h / d)
    let ry := dx * (h / d)
    let denom := max 1e-6 (min r0 r1)
    let w_angle := max 0 (min 1 (h / denom))
    if h ≤ 1e-6 then [(xm + rx, ym + ry, w_angle)]
    else [(xm + rx, ym + ry, w_angle), (xm - rx, ym - ry, w_angle)]

/-- One row of per-point data built in each Gauss–Newton iteration of
`_wls_trilateration`: the Jacobian row `(hx, hy)        = ((x-xi)/dist, (y-yi)/dist)`,
the residual `b = dist - ri` and the weight `w = 1/(1 + ri/1000)`,
with `dist = hypot(x - xi, y - yi)` floored at `1e-6`. -/
structure WRow where
  hx : ℝ
  hy : ℝ
  b : ℝ
  w : ℝ

/-- The per-point rows of one `_wls_trilateration` iteration at estimate `(x, y)`. -/
noncomputable def wls_rows (pts : List (ℝ × ℝ × ℝ)) (x y : ℝ) : List WRow :=
  pts.map fun p =>
    let dx := x - p.1
    let dy := y - p.2.1
    let dist0 := Real.sqrt (dx ^ 2 + dy ^ 2)
    let dist := if dist0 < 1e-6 then 1e-6 else dist0
    { hx := dx / dist, hy := dy / dist, b := dist - p.2.2, w := 1 / (1 + p.2.2 / 1000) }

/- The Python source forms the diagonal weight matrix `W` explicitly and
computes `HᵀW`, `HᵀWH` and `HᵀWb` with nested index loops.  Because `W` is
diagonal, the resulting 2×2 normal matrix and 2-vector entries are exactly
the weighted sums below; we embed those values directly. -/

/-- `(HᵀWH)[0][0]` of one WLS iteration. -/
noncomputable def wls_a00 (pts : List (ℝ × ℝ × ℝ)) (x y : ℝ) : ℝ :=
  ((wls_rows pts x y).map fun r => r.w * r.hx * r.hx).sum

/-- `(HᵀWH)[0][1]` of one WLS iteration. -/
noncomputable def wls_a01 (pts : List (ℝ × ℝ × ℝ)) (x y : ℝ) : ℝ :=
  ((wls_rows pts x y).map fun r => r.w * r.hx * r.hy).sum

/-- `(HᵀWH)[1][0]` of one WLS iteration. -/
noncomputable def wls_a10 (pts : List (ℝ × ℝ × ℝ)) (x y : ℝ) : ℝ :=
  ((wls_rows pts x y).map fun r => r.w * r.hy * r.hx).sum

/-- `(HᵀWH)[1][1]` of one WLS iteration. -/
noncomputable def wls_a11 (pts : List (ℝ × ℝ × ℝ)) (x y : ℝ) : ℝ :=
  ((wls_rows pts x y).map fun r => r.w * r.hy * r.hy).sum

/-- `(HᵀWb)[0]` of one WLS iteration. -/
noncomputable def wls_b0 (pts : List (ℝ × ℝ × ℝ)) (x y : ℝ) : ℝ :=
  ((wls_rows pts x y).map fun r => r.w * r.hx * r.b).sum

/-- `(HᵀWb)[1]` of one WLS iteration. -/
noncomputable def wls_b1 (pts : List (ℝ × ℝ × ℝ)) (x y : ℝ) : ℝ :=
  ((wls_rows pts x y).map fun r => r.w * r.hy * r.b).sum

/-- Determinant of the 2×2 normal matrix `HᵀWH`. -/
noncomputable def wls_det (pts : List (ℝ × ℝ × ℝ)) (x y : ℝ) : ℝ :=
  wls_a00 pts x y * wls_a11 pts x y - wls_a01 pts x y * wls_a10 pts x y

/-- The `for iteration in range(max_iter)` loop of `_wls_trilateration`,
with the remaining iteration count as fuel.  A singular normal matrix
(`|det| < 1e-10`) or a correction below the convergence threshold stops the
loop (`break`); the loop never fails.  The Python `try/except` around the
solve cannot fire in real arithmetic: the only divisions are by `dist`
(floored at `1e-6`) and by `det` (guarded by the singularity test). -/
noncomputable def wls_loop (pts : List (ℝ × ℝ × ℝ)) (convergence_threshold : ℝ) :
    ℕ → ℝ × ℝ → ℝ × ℝ
  | 0, est => est
  | k + 1, (x, y) =>
    if |wls_det pts x y| < 1e-10 then (x, y)
    else
      let det := wls_det pts x y
      let delta_x := (wls_a11 pts x y / det) * wls_b0 pts x y +
        (-(wls_a01 pts x y) / det) * wls_b1 pts x y
      let delta_y := (-(wls_a10 pts x y) / det) * wls_b0 pts x y +
        (wls_a00 pts x y / det) * wls_b1 pts x y
      let x' := x - delta_x
      let y' := y - delta_y
      if Real.sqrt (delta_x ^ 2 + delta_y ^ 2) < convergence_threshold then (x', y')
      else wls_loop pts convergence_threshold k (x', y')

/-- `_wls_trilateration(pts, max_iter, convergence_threshold)`: `None` for
fewer than 3 points, otherwise the Gauss–Newton loop started at the
arithmetic mean of the points.  The call sites in the source always use the
defaults `max_iter = 20`, `convergence_threshold = 0.1`. -/
noncomputable def wls_trilateration (pts : List (ℝ × ℝ × ℝ)) (max_iter : ℕ)
    (convergence_threshold : ℝ) : Option (ℝ × ℝ) :=
  if pts.length < 3 then none
  else
    let x_est := (pts.map fun p => p.1).sum / pts.length
    let y_est := (pts.map fun p => p.2.1).sum / pts.length
    some (wls_loop pts convergence_threshold max_iter (x_est, y_est))

/-- Absolute residuals `|hypot(x_est - xi, y_est - yi) - ri|` of
`_robust_trilateration` at the estimate `est`. -/
noncomputable def robust_residuals (pts : List (ℝ × ℝ × ℝ)) (est : ℝ × ℝ) : List ℝ :=
  pts.map fun p => |Real.sqrt ((est.1 - p.1) ^ 2 + (est.2 - p.2.1) ^ 2) - p.2.2|

/-- `sorted(l)[len(l) // 2]`: the element at index `length / 2` of the
ascending sort; for even length this is the upper of the two middle
elements.  Out-of-range indexing (empty list) defaults to `0`. -/
noncomputable def list_median_upper (l : List ℝ) : ℝ :=
  (List.insertionSort (· ≤ ·) l).getD (l.length / 2) 0

/-- The inlier sublist of `_robust_trilateration`: the points whose residual
satisfies `residual - median < threshold` (in source order). -/
noncomputable def robust_inliers (pts : List (ℝ × ℝ × ℝ)) (res : List ℝ)
    (median threshold : ℝ) : List (ℝ × ℝ × ℝ) :=
  ((pts.zip res).filter fun pr => pr.2 - median < threshold).map Prod.fst

/-- `_robust_trilateration(pts, outlier_threshold)`: WLS initial fit,
median/MAD outlier rejection, then a WLS re-fit on the inliers when at
least 3 remain.  The call site in the source uses the default
`outlier_threshold = 3.0`. -/
noncomputable def robust_trilateration (pts : List (ℝ × ℝ × ℝ))
    (outlier_threshold : ℝ) : Option (ℝ × ℝ) :=
  if pts.length < 3 then none
  else
    match wls_trilateration pts 20 0.1 with
    | none => none
    | some est =>
      let res := robust_residuals pts est
      let median := list_median_upper res
      let mad := list_median_upper (res.map fun r => |r - median|)
      if mad < 1e-6 then some est
      else
        let threshold := outlier_threshold * 1.4826 * mad
        let inliers := robust_inliers pts res median threshold
        if 3 ≤ inliers.length then
          match wls_trilateration inliers 20 0.1 with
          | some result => some result
          | none => some est
        else some est

/-- The per-observation weight of `centroid_estimate` in `cell_map`:
`w = (10^(rssi_dbm/10)) ^ (2 / max(ple, 0.1))` with the RSSI clamped to
`[-140, -20]` dBm first. -/
noncomputable def obs_weight (ple rssi : ℝ) : ℝ :=
  let rssi_dbm := max (min rssi (-20)) (-140)
  let p_mw := (10 : ℝ) ^ (rssi_dbm / 10)
  p_mw ^ (2 / max ple 0.1)

/-- The accumulated `sum_w` of `centroid_estimate`. -/
noncomputable def centroid_weight_sum (logs : List Obs) (ple : ℝ) : ℝ :=
  (logs.map fun log => obs_weight ple log.rssi).sum

/-- `centroid_estimate()` inside `cell_map`: power-weighted centroid of the
observations; `(None, None)` (modelled as `none`) when the weight sum is
not positive. -/
noncomputable def centroid_estimate (logs : List Obs) (ple : ℝ) : Option (ℝ × ℝ) :=
  let sum_lat := (logs.map fun log => log.lat * obs_weight ple log.rssi).sum
  let sum_lon := (logs.map fun log => log.lon * obs_weight ple log.rssi).sum
  let sum_w := centroid_weight_sum logs ple
  if sum_w > 0 then some (sum_lat / sum_w, sum_lon / sum_w) else none

/-- The `(x, y, r)` circle list built by `cell_map` before dispatching to a
geometric method: projected position plus path-loss radius, with the RSSI
clamped to `[-140, -20]` dBm. -/
noncomputable def build_pts (logs : List Obs) (ple ref_rssi ref_dist lat0 lon0 : ℝ) :
    List (ℝ × ℝ × ℝ) :=
  logs.map fun log =>
    let rssi_dbm := max (min log.rssi (-20)) (-140)
    let d_m := rssi_to_distance_m rssi_dbm ple ref_rssi ref_dist
    let xy := ll_to_xy_m log.lat log.lon lat0 lon0
    (xy.1, xy.2, d_m)

/-- The double loop `for i in range(n): for j in range(i+1, n)` of the
`accum` branch collecting all pairwise circle intersections, in source
order. -/
noncomputable def all_pair_intersections : List (ℝ × ℝ × ℝ) → List (ℝ × ℝ × ℝ)
  | [] => []
  | p :: rest =>
    (rest.flatMap fun q => circle_intersections p.1 p.2.1 p.2.2 q.1 q.2.1 q.2.2) ++
      all_pair_intersections rest

/-- The neighbourhood score of the `accum` branch: sum of the weights of all
intersection points within `bw` of `(xk, yk)` (summands outside the radius
contribute `0`, matching the skipped loop iterations of the source). -/
noncomputable def accum_score (inters : List (ℝ × ℝ × ℝ)) (bw xk yk : ℝ) : ℝ :=
  (inters.map fun q =>
    if (q.1 - xk) * (q.1 - xk) + (q.2.1 - yk) * (q.2.1 - yk) ≤ bw * bw then q.2.2
    else 0).sum

/-- The best-scoring intersection point of the `accum` branch together with
its score.  The fold mirrors the Python loop with `best_score = -1.0`:
since every score is a sum of weights `≥ 0` (each point is within `bw` of
itself), the first element always replaces the initial accumulator, and a
later element replaces the current best only on a strictly larger score —
the same first-maximum tie-break as the source.  The `(0, 0, 0)` seed is
only reachable on an empty list, which the caller has already excluded. -/
noncomputable def accum_best (inters : List (ℝ × ℝ × ℝ)) (bw : ℝ) :
    (ℝ × ℝ × ℝ) × ℝ :=
  inters.foldl
    (fun acc p =>
      let score := accum_score inters bw p.1 p.2.1
      if score > acc.2 then (p, score) else acc)
    ((0, 0, 0), -1)

/-- The weighted contributions `(xi*w, yi*w, w)` of the final `accum`
average around the chosen centre `(cx, cy)`, with
`w = wi * (1 - sqrt(d2)/bw)`; points outside the bandwidth contribute
`(0, 0, 0)`, matching the skipped loop iterations of the source. -/
noncomputable def accum_terms (inters : List (ℝ × ℝ × ℝ)) (bw cx cy : ℝ) :
    List (ℝ × ℝ × ℝ) :=
  inters.map fun q =>
    let d2 := (q.1 - cx) * (q.1 - cx) + (q.2.1 - cy) * (q.2.1 - cy)
    if d2 ≤ bw * bw then
      let w := q.2.2 * (1 - Real.sqrt d2 / bw)
      (q.1 * w, q.2.1 * w, w)
    else (0, 0, 0)

/-- The `sumw` of the final `accum` weighted average. -/
noncomputable def accum_mass (inters : List (ℝ × ℝ × ℝ)) (bw : ℝ) : ℝ :=
  let c := accum_best inters bw
  ((accum_terms inters bw c.1.1 c.1.2.1).map fun t => t.2.2).sum

/-- The final estimate of the `accum` branch on a non-empty intersection
list: bandwidth clamped to `≥ 5` m, densest intersection point as centre,
then the distance-decayed weighted average over the neighbourhood — or the
centre itself when the weight sum is not positive. -/
noncomputable def accum_estimate (inters : List (ℝ × ℝ × ℝ)) (bandwidth_m : ℝ) :
    ℝ × ℝ :=
  let bw := max 5 bandwidth_m
  let c := accum_best inters bw
  let terms := accum_terms inters bw c.1.1 c.1.2.1
  let sumw := (terms.map fun t => t.2.2).sum
  if sumw > 0 then
    ((terms.map fun t => t.1).sum / sumw, (terms.map fun t => t.2.1).sum / sumw)
  else (c.1.1, c.1.2.1)

/-- The per-transmitter body of the `cell_map` loop: the `(lat, lon)` of the
produced record, `none` standing for a `(None, None)` coordinate pair.
Dispatch on the raw `method` string exactly as in the source: `centroid`
(or fewer than 2 observations) uses the power-weighted centroid; `wls` and
`robust` call their solver and fall back to the centroid on `None`; every
other string reaches the trailing `accum` code, which falls back to the
centroid only when no circle pair intersects. -/
noncomputable def cell_estimate (method : String) (logs : List Obs)
    (ple ref_rssi ref_dist bandwidth_m : ℝ) : Option (ℝ × ℝ) :=
  if logs.length = 0 then none
  else if method = "centroid" ∨ logs.length < 2 then centroid_estimate logs ple
  else
    let lat0 := (logs.map Obs.lat).sum / logs.length
    let lon0 := (logs.map Obs.lon).sum / logs.length
    let pts := build_pts logs ple ref_rssi ref_dist lat0 lon0
    if method = "wls" then
      match wls_trilateration pts 20 0.1 with
      | none => centroid_estimate logs ple
      | some est => some (xy_to_ll est.1 est.2 lat0 lon0)
    else if method = "robust" then
      match robust_trilateration pts 3.0 with
      | none => centroid_estimate logs ple
      | some est => some (xy_to_ll est.1 est.2 lat0 lon0)
    else
      let inters := all_pair_intersections pts
      if inters.length = 0 then centroid_estimate logs ple
      else
        let e := accum_estimate inters bandwidth_m
        some (xy_to_ll e.1 e.2 lat0 lon0)

/-! ## Helper lemmas shared across the claims -/

lemma rssi_to_distance_m_bounds (rssi n rr rd : ℝ) :
    1 ≤ rssi_to_distance_m rssi n rr rd ∧ rssi_to_distance_m rssi n rr rd ≤ 50000 := by
  simp only [rssi_to_distance_m]
  exact ⟨le_max_left _ _, max_le (by norm_num) (min_le_right _ _)⟩

lemma rssi_to_distance_m_eq_one_of_nonpos_exp (rssi n rr : ℝ)
    (h : (rr - rssi) / (10 * max n 0.1) ≤ 0) :
    rssi_to_distance_m rssi n rr 1 = 1 := by
  simp only [rssi_to_distance_m]
  have hle : (1 : ℝ) * (10 : ℝ) ^ ((rr - rssi) / (10 * max n 0.1)) ≤ 1 := by
    rw [one_mul]
    exact Real.rpow_le_one_of_one_le_of_nonpos (by norm_num) h
  rw [min_eq_left (by linarith), max_eq_left hle]

/-! ## C8: radius invariant -/

/-- Claim C8: Every value of `rssi_to_distance_m` lies in `[1, 50000]`, for
arbitrary real inputs, and hence every circle radius the orchestrator
builds (the third component of each `build_pts` entry, which is also the
`radius_m` of every debug circle) lies in `[1, 50000]`. -/
theorem radius_invariant (rssi n rr rd : ℝ) (logs : List Obs)
    (ple ref_rssi ref_dist lat0 lon0 : ℝ) (p : ℝ × ℝ × ℝ)
    (hp : p ∈ build_pts logs ple ref_rssi ref_dist lat0 lon0) :
    (1 ≤ rssi_to_distance_m rssi n rr rd ∧ rssi_to_distance_m rssi n rr rd ≤ 50000) ∧
      (1 ≤ p.2.2 ∧ p.2.2 ≤ 50000) := by
  refine ⟨rssi_to_distance_m_bounds rssi n rr rd, ?_⟩
  simp only [build_pts, List.mem_map] at hp
  obtain ⟨log, -, rfl⟩ := hp
  exact rssi_to_distance_m_bounds _ _ _ _

/-- A single concrete observation list for witnesses. -/
noncomputable def demo_obs : List Obs := [⟨0, 0, -50⟩]

/-- The circle `build_pts` derives from `demo_obs` at origin `(0, 0)` with
default parameters. -/
noncomputable def demo_pt : ℝ × ℝ × ℝ :=
  ((ll_to_xy_m 0 0 0 0).1, (ll_to_xy_m 0 0 0 0).2,
    rssi_to_distance_m (max (min (-50 : ℝ) (-20)) (-140)) 2 (-40) 1)

theorem radius_invariant_witness :
    demo_pt ∈ build_pts demo_obs 2 (-40) 1 0 0 ∧ 1 ≤ demo_pt.2.2 ∧ demo_pt.2.2 ≤ 50000 := by
  have hp : demo_pt ∈ build_pts demo_obs 2 (-40) 1 0 0 := by
    simp [build_pts, demo_obs, demo_pt]
  exact ⟨hp, (radius_invariant 0 2 (-40) 1 demo_obs 2 (-40) 1 0 0 demo_pt hp).2⟩

/-! ## C5: path-loss monotonicity in RSSI -/

/-- Claim C5 (amended): The clipped path-loss distance is antitone in RSSI:
for fixed `n, ref_rssi, ref_dist` and `rssi_1 ≤ rssi_2`,
`distance(rssi_2) ≤ distance(rssi_1)`.  Strict monotonicity fails once the
clip to `[1, 50000]` saturates (see the counterexample). -/
theorem pathloss_antitone_in_rssi (n rr rd r1 r2 : ℝ) (h : r1 ≤ r2) :
    rssi_to_distance_m r2 n rr rd ≤ rssi_to_distance_m r1 n rr rd := by
  have hn : (0 : ℝ) < 10 * max n 0.1 := by
    have h1 : (0.1 : ℝ) ≤ max n 0.1 := le_max_right _ _
    nlinarith
  have hexp : (rr - r2) / (10 * max n 0.1) ≤ (rr - r1) / (10 * max n 0.1) :=
    (div_le_div_iff_of_pos_right hn).mpr (by linarith)
  have hpow : (10 : ℝ) ^ ((rr - r2) / (10 * max n 0.1)) ≤
      (10 : ℝ) ^ ((rr - r1) / (10 * max n 0.1)) :=
    Real.rpow_le_rpow_of_exponent_le (by norm_num) hexp
  rcases le_or_lt 0 rd with hrd | hrd
  · have hd : rd * (10 : ℝ) ^ ((rr - r2) / (10 * max n 0.1)) ≤
        rd * (10 : ℝ) ^ ((rr - r1) / (10 * max n 0.1)) :=
      mul_le_mul_of_nonneg_left hpow hrd
    simp only [rssi_to_distance_m]
    exact max_le_max le_rfl (min_le_min hd le_rfl)
  · have hpos : (0 : ℝ) < (10 : ℝ) ^ ((rr - r2) / (10 * max n 0.1)) :=
      Real.rpow_pos_of_pos (by norm_num) _
    have hd2 : rd * (10 : ℝ) ^ ((rr - r2) / (10 * max n 0.1)) ≤ 0 :=
      le_of_lt (mul_neg_of_neg_of_pos hrd hpos)
    have hle1 : rssi_to_distance_m r2 n rr rd ≤ 1 := by
      simp only [rssi_to_distance_m]
      exact max_le le_rfl (le_trans (min_le_left _ _) (by linarith))
    exact le_trans hle1 (rssi_to_distance_m_bounds r1 n rr rd).1

theorem pathloss_antitone_witness :
    ((-60 : ℝ) ≤ -50) ∧
      rssi_to_distance_m (-50) 2 (-40) 1 ≤ rssi_to_distance_m (-60) 2 (-40) 1 :=
  ⟨by norm_num, pathloss_antitone_in_rssi 2 (-40) 1 (-60) (-50) (by norm_num)⟩

/-- Claim C5 counterexample: With the default parameters `n = 2`,
`ref_rssi = -40`, `ref_dist = 1`, the RSSI values `-30 < -20` (both inside
the clamp range `[-140, -20]`) produce the *same* clipped distance `1.0`,
so the strict inequality `distance(rssi_1) > distance(rssi_2)` claimed for
every `rssi_1 < rssi_2` fails. -/
theorem pathloss_strict_mono_counterexample :
    (-30 : ℝ) < -20 ∧
      ¬ (rssi_to_distance_m (-30) 2 (-40) 1 > rssi_to_distance_m (-20) 2 (-40) 1) := by
  refine ⟨by norm_num, ?_⟩
  have h1 : rssi_to_distance_m (-30) 2 (-40) 1 = 1 := by
    apply rssi_to_distance_m_eq_one_of_nonpos_exp
    rw [max_eq_left (by norm_num : (0.1 : ℝ) ≤ 2)]
    norm_num
  have h2 : rssi_to_distance_m (-20) 2 (-40) 1 = 1 := by
    apply rssi_to_distance_m_eq_one_of_nonpos_exp
    rw [max_eq_left (by norm_num : (0.1 : ℝ) ≤ 2)]
    norm_num
  rw [h1, h2]
  norm_num

/-! ## C7: projection round-trip -/

/-- Claim C7: The planar projection round-trips exactly in real arithmetic:
whenever `cos` of the origin latitude is nonzero,
`xy_to_ll (ll_to_xy_m lat lon lat0 lon0) lat0 lon0 = (lat, lon)`. -/
theorem projection_round_trip (lat lon lat0 lon0 : ℝ)
    (hcos : Real.cos (lat0 * (Real.pi / 180)) ≠ 0) :
    xy_to_ll (ll_to_xy_m lat lon lat0 lon0).1 (ll_to_xy_m lat lon lat0 lon0).2 lat0 lon0
      = (lat, lon) := by
  have hpi : Real.pi ≠ 0 := Real.pi_ne_zero
  simp only [ll_to_xy_m, xy_to_ll, Prod.mk.injEq]
  have hre : lat0 * Real.pi / 180 = lat0 * (Real.pi / 180) := by ring
  rw [hre]
  set C := Real.cos (lat0 * (Real.pi / 180)) with hC
  constructor
  · field_simp
    ring
  · field_simp [hcos]
    ring

theorem projection_round_trip_witness :
    Real.cos ((0 : ℝ) * (Real.pi / 180)) ≠ 0 ∧
      xy_to_ll (ll_to_xy_m 35 135 0 0).1 (ll_to_xy_m 35 135 0 0).2 0 0 = (35, 135) := by
  have hcos : Real.cos ((0 : ℝ) * (Real.pi / 180)) ≠ 0 := by
    rw [zero_mul, Real.cos_zero]
    norm_num
  exact ⟨hcos, projection_round_trip 35 135 0 0 hcos⟩

/-! ## C3: nullability of the WLS solver -/

lemma wls_trilateration_eq_some (pts : List (ℝ × ℝ × ℝ)) (k : ℕ) (t : ℝ)
    (h : 3 ≤ pts.length) :
    wls_trilateration pts k t =
      some (wls_loop pts t k
        ((pts.map fun p => p.1).sum / pts.length, (pts.map fun p => p.2.1).sum / pts.length)) := by
  simp only [wls_trilateration]
  rw [if_neg (by omega)]

/-- Claim C3 (amended): The WLS solver returns `none` exactly when fewer than
3 points are supplied.  With 3 or more points it always returns a
coordinate pair: when no iteration runs (`max_iter = 0`) it returns the
initial arithmetic-mean estimate, and when the normal-equation determinant
at the initial estimate is below `1e-10` the first iteration terminates
with that initial estimate rather than returning `none`. -/
theorem wls_none_iff_insufficient (pts : List (ℝ × ℝ × ℝ)) (k : ℕ) (t : ℝ) :
    (wls_trilateration pts k t = none ↔ pts.length < 3) ∧
    (3 ≤ pts.length → wls_trilateration pts 0 t =
      some ((pts.map fun p => p.1).sum / pts.length,
            (pts.map fun p => p.2.1).sum / pts.length)) ∧
    (3 ≤ pts.length →
      |wls_det pts ((pts.map fun p => p.1).sum / pts.length)
          ((pts.map fun p => p.2.1).sum / pts.length)| < 1e-10 →
      wls_trilateration pts (k + 1) t =
        some ((pts.map fun p => p.1).sum / pts.length,
              (pts.map fun p => p.2.1).sum / pts.length)) := by
  refine ⟨?_, ?_, ?_⟩
  · by_cases h : pts.length < 3
    · simp [wls_trilateration, h]
    · simp [wls_trilateration, h]
  · intro h3
    rw [wls_trilateration_eq_some pts 0 t h3]
    rfl
  · intro h3 hdet
    rw [wls_trilateration_eq_some pts (k + 1) t h3]
    simp only [wls_loop]
    rw [if_pos hdet]

/-- Three distinct points for witnesses. -/
noncomputable def demo_pts3 : List (ℝ × ℝ × ℝ) := [(0, 0, 1), (2, 0, 1), (0, 2, 1)]

/-- Three coincident degenerate points (singular normal matrix). -/
noncomputable def demo_deg3 : List (ℝ × ℝ × ℝ) := [(0, 0, 1), (0, 0, 1), (0, 0, 1)]

/-- Claim C3 counterexample: With 3 points supplied and `max_iter = 0` — so
no iteration runs — the solver still returns a coordinate pair (the
initial arithmetic mean), not `null`, contradicting "returns null ... when
no iteration runs". -/
theorem wls_zero_iter_counterexample :
    3 ≤ demo_pts3.length ∧ wls_trilateration demo_pts3 0 0.1 ≠ none := by
  have h3 : 3 ≤ demo_pts3.length := by simp [demo_pts3]
  refine ⟨h3, ?_⟩
  rw [wls_trilateration_eq_some demo_pts3 0 0.1 h3]
  simp

theorem wls_none_iff_insufficient_witness :
    3 ≤ demo_deg3.length ∧
      |wls_det demo_deg3 ((demo_deg3.map fun p => p.1).sum / demo_deg3.length)
          ((demo_deg3.map fun p => p.2.1).sum / demo_deg3.length)| < 1e-10 ∧
      wls_trilateration demo_deg3 1 0.1 =
        some ((demo_deg3.map fun p => p.1).sum / demo_deg3.length,
              (demo_deg3.map fun p => p.2.1).sum / demo_deg3.length) := by
  have h3 : 3 ≤ demo_deg3.length := by simp [demo_deg3]
  have hm1 : ((demo_deg3.map fun p => p.1).sum / (demo_deg3.length : ℝ)) = 0 := by
    simp [demo_deg3]
  have hm2 : ((demo_deg3.map fun p => p.2.1).sum / (demo_deg3.length : ℝ)) = 0 := by
    simp [demo_deg3]
  have hdet : |wls_det demo_deg3 ((demo_deg3.map fun p => p.1).sum / demo_deg3.length)
      ((demo_deg3.map fun p => p.2.1).sum / demo_deg3.length)| < 1e-10 := by
    rw [hm1, hm2]
    norm_num [wls_det, wls_a00, wls_a01, wls_a10, wls_a11, wls_rows, demo_deg3]
  exact ⟨h3, hdet, ((wls_none_iff_insufficient demo_deg3 0 0.1).2.2) h3 hdet⟩

/-! ## C6: the robust estimator never fails after a successful initial fit -/

lemma wls_isSome_of_length (pts : List (ℝ × ℝ × ℝ)) (k : ℕ) (t : ℝ)
    (h : 3 ≤ pts.length) : ∃ est, wls_trilateration pts k t = some est :=
  ⟨_, wls_trilateration_eq_some pts k t h⟩

/-- Claim C6: Once the initial WLS fit succeeds (equivalently, at least 3
points were supplied), `robust_trilateration` returns a non-null estimate:
the unchanged initial estimate when `MAD < 1e-6`, the re-solved estimate on
the inlier subset (`residual - median < 3.0 * 1.4826 * MAD`) when at least
3 inliers remain, and the unrefined initial estimate otherwise. -/
theorem robust_total_on_wls_success (pts : List (ℝ × ℝ × ℝ)) (h : 3 ≤ pts.length) :
    ∃ est, wls_trilateration pts 20 0.1 = some est ∧
      robust_trilateration pts 3.0 =
        some (
          let res := robust_residuals pts est
          let median := list_median_upper res
          let mad := list_median_upper (res.map fun r => |r - median|)
          let inliers := robust_inliers pts res median (3.0 * 1.4826 * mad)
          if mad < 1e-6 then est
          else if 3 ≤ inliers.length then (wls_trilateration inliers 20 0.1).getD est
          else est) := by
  obtain ⟨est, hest⟩ := wls_isSome_of_length pts 20 0.1 h
  refine ⟨est, hest, ?_⟩
  simp only [robust_trilateration]
  rw [if_neg (by omega)]
  split
  · next heq => rw [hest] at heq; cases heq
  · next est' heq =>
    rw [hest] at heq
    injection heq with heq'
    subst heq'
    by_cases hmad : list_median_upper
        ((robust_residuals pts est).map fun r =>
          |r - list_median_upper (robust_residuals pts est)|) < 1e-6
    · rw [if_pos hmad, if_pos hmad]
    · rw [if_neg hmad, if_neg hmad]
      by_cases hin : 3 ≤ (robust_inliers pts (robust_residuals pts est)
          (list_median_upper (robust_residuals pts est))
          (3.0 * 1.4826 * list_median_upper
            ((robust_residuals pts est).map fun r =>
              |r - list_median_upper (robust_residuals pts est)|))).length
      · rw [if_pos hin, if_pos hin]
        obtain ⟨r, hr⟩ := wls_isSome_of_length _ 20 0.1 hin
        rw [hr]
        rfl
      · rw [if_neg hin, if_neg hin]

theorem robust_total_witness :
    3 ≤ demo_pts3.length ∧
      ∃ est, wls_trilateration demo_pts3 20 0.1 = some est ∧
        robust_trilateration demo_pts3 3.0 =
          some (
            let res := robust_residuals demo_pts3 est
            let median := list_median_upper res
            let mad := list_median_upper (res.map fun r => |r - median|)
            let inliers := robust_inliers demo_pts3 res median (3.0 * 1.4826 * mad)
            if mad < 1e-6 then est
            else if 3 ≤ inliers.length then (wls_trilateration inliers 20 0.1).getD est
            else est) :=
  ⟨by simp [demo_pts3], robust_total_on_wls_success demo_pts3 (by simp [demo_pts3])⟩

/-! ## C9: the even-length median is the upper middle element -/

/-- Claim C9: For an even-length residual list of length `2 m`, the value the
robust estimator uses as the median (`sorted[len // 2]`) is element `m`
(0-indexed) of the ascending sort — the upper of the two middle elements —
and the MAD is computed by the same indexing on the deviation list.  On the
concrete list `[0, 10]` this picks `10`, which differs from the average `5`
of the two middle elements. -/
theorem median_even_upper_middle (l : List ℝ) (m : ℕ) (hl : l.length = 2 * m) :
    list_median_upper l = (List.insertionSort (· ≤ ·) l).getD m 0 ∧
    list_median_upper (l.map fun r => |r - list_median_upper l|) =
      (List.insertionSort (· ≤ ·) (l.map fun r => |r - list_median_upper l|)).getD m 0 ∧
    list_median_upper [(0 : ℝ), 10] = 10 ∧ ((0 : ℝ) + 10) / 2 ≠ 10 := by
  have hdiv : l.length / 2 = m := by omega
  have hdiv2 : (l.map fun r => |r - list_median_upper l|).length / 2 = m := by
    rw [List.length_map]; omega
  refine ⟨?_, ?_, ?_, by norm_num⟩
  · simp only [list_median_upper, hdiv]
  · simp only [list_median_upper, List.length_map, hdiv]
  · norm_num [list_median_upper, List.insertionSort, List.orderedInsert]

theorem median_even_upper_middle_witness :
    ([(0 : ℝ), 10]).length = 2 * 1 ∧
      list_median_upper [(0 : ℝ), 10] =
        (List.insertionSort (· ≤ ·) [(0 : ℝ), 10]).getD 1 0 :=
  ⟨by simp, (median_even_upper_middle [(0 : ℝ), 10] 1 (by simp)).1⟩

/-! ## C4: externally tangent circles -/

lemma circle_intersections_tangent (x0 y0 r0 x1 y1 r1 : ℝ)
    (h0 : 0 ≤ r0) (h1 : 0 ≤ r1)
    (hd : Real.sqrt ((x1 - x0) ^ 2 + (y1 - y0) ^ 2) = r0 + r1)
    (hgt : 1e-6 < r0 + r1) :
    circle_intersections x0 y0 r0 x1 y1 r1 =
      [(x0 + r0 * (x1 - x0) / (r0 + r1), y0 + r0 * (y1 - y0) / (r0 + r1), 0)] := by
  have hpos : (0 : ℝ) < r0 + r1 := lt_trans (by norm_num) hgt
  have hne : r0 + r1 ≠ 0 := ne_of_gt hpos
  have hguard : ¬ (r0 + r1 ≤ 1e-6 ∨ r0 + r1 > r0 + r1 ∨ r0 + r1 < |r0 - r1|) := by
    push_neg
    refine ⟨by linarith, le_rfl, ?_⟩
    rw [abs_le]
    constructor <;> linarith
  simp only [circle_intersections]
  rw [hd, if_neg hguard]
  have ha : (r0 * r0 - r1 * r1 + (r0 + r1) * (r0 + r1)) / (2 * (r0 + r1)) = r0 := by
    field_simp
    ring
  rw [ha]
  have hh2 : r0 * r0 - r0 * r0 = (0 : ℝ) := by ring
  rw [hh2, if_neg (lt_irrefl (0 : ℝ)), Real.sqrt_zero]
  norm_num

/-- Claim C4 (amended): For two circles whose centre distance `d` equals
`r0 + r1` exactly (externally tangent, `d > 1e-6`, nonnegative radii),
`circle_intersections` returns exactly one point, and that point lies at
distance `r0` from the *first* centre and at distance `r1` from the
*second* centre (not `r0` from each). -/
theorem tangent_intersection_distances (x0 y0 r0 x1 y1 r1 : ℝ)
    (h0 : 0 ≤ r0) (h1 : 0 ≤ r1)
    (hd : Real.sqrt ((x1 - x0) ^ 2 + (y1 - y0) ^ 2) = r0 + r1)
    (hgt : 1e-6 < r0 + r1) :
    ∃ px py w, circle_intersections x0 y0 r0 x1 y1 r1 = [(px, py, w)] ∧
      Real.sqrt ((px - x0) ^ 2 + (py - y0) ^ 2) = r0 ∧
      Real.sqrt ((px - x1) ^ 2 + (py - y1) ^ 2) = r1 := by
  have hpos : (0 : ℝ) < r0 + r1 := lt_trans (by norm_num) hgt
  have hne : r0 + r1 ≠ 0 := ne_of_gt hpos
  have hsq : (x1 - x0) ^ 2 + (y1 - y0) ^ 2 = (r0 + r1) ^ 2 := by
    have h := Real.sq_sqrt (by positivity : (0 : ℝ) ≤ (x1 - x0) ^ 2 + (y1 - y0) ^ 2)
    rw [hd] at h
    linarith
  refine ⟨_, _, _, circle_intersections_tangent x0 y0 r0 x1 y1 r1 h0 h1 hd hgt, ?_, ?_⟩
  · have e1 : (x0 + r0 * (x1 - x0) / (r0 + r1) - x0) ^ 2 +
        (y0 + r0 * (y1 - y0) / (r0 + r1) - y0) ^ 2 =
        r0 ^ 2 * ((x1 - x0) ^ 2 + (y1 - y0) ^ 2) / (r0 + r1) ^ 2 := by
      field_simp
      ring
    rw [e1, hsq, mul_div_assoc, div_self (pow_ne_zero 2 hne), mul_one]
    exact Real.sqrt_sq h0
  · have e2 : (x0 + r0 * (x1 - x0) / (r0 + r1) - x1) ^ 2 +
        (y0 + r0 * (y1 - y0) / (r0 + r1) - y1) ^ 2 =
        r1 ^ 2 * ((x1 - x0) ^ 2 + (y1 - y0) ^ 2) / (r0 + r1) ^ 2 := by
      field_simp
      ring
    rw [e2, hsq, mul_div_assoc, div_self (pow_ne_zero 2 hne), mul_one]
    exact Real.sqrt_sq h1

theorem tangent_intersection_witness :
    ((0 : ℝ) ≤ 1 ∧ (0 : ℝ) ≤ 2 ∧
        Real.sqrt (((3 : ℝ) - 0) ^ 2 + ((0 : ℝ) - 0) ^ 2) = 1 + 2 ∧ (1e-6 : ℝ) < 1 + 2) ∧
      ∃ px py w, circle_intersections 0 0 1 3 0 2 = [(px, py, w)] ∧
        Real.sqrt ((px - 0) ^ 2 + (py - 0) ^ 2) = 1 ∧
        Real.sqrt ((px - 3) ^ 2 + (py - 0) ^ 2) = 2 := by
  have hd : Real.sqrt (((3 : ℝ) - 0) ^ 2 + ((0 : ℝ) - 0) ^ 2) = 1 + 2 := by
    rw [show ((3 : ℝ) - 0) ^ 2 + ((0 : ℝ) - 0) ^ 2 = 3 ^ 2 by norm_num,
      Real.sqrt_sq (by norm_num)]
    norm_num
  exact ⟨⟨by norm_num, by norm_num, hd, by norm_num⟩,
    tangent_intersection_distances 0 0 1 3 0 2 (by norm_num) (by norm_num) hd (by norm_num)⟩

/-- Claim C4 counterexample: The circles centred `(0,0)` and `(3,0)` with
radii `r0 = 1`, `r1 = 2` are externally tangent (`d = 3 = r0 + r1`).  The
single returned intersection point is `(1, 0)`, whose distance from the
*second* centre is `2 ≠ r0`: the claimed "distance `r0` from each of the
two centers" fails. -/
theorem tangent_distance_counterexample :
    circle_intersections 0 0 1 3 0 2 = [(1, 0, 0)] ∧
      Real.sqrt (((1 : ℝ) - 3) ^ 2 + ((0 : ℝ) - 0) ^ 2) ≠ 1 := by
  constructor
  · have hd : Real.sqrt (((3 : ℝ) - 0) ^ 2 + ((0 : ℝ) - 0) ^ 2) = 1 + 2 := by
      rw [show ((3 : ℝ) - 0) ^ 2 + ((0 : ℝ) - 0) ^ 2 = 3 ^ 2 by norm_num,
        Real.sqrt_sq (by norm_num)]
      norm_num
    rw [circle_intersections_tangent 0 0 1 3 0 2 (by norm_num) (by norm_num) hd (by norm_num)]
    norm_num
  · rw [show ((1 : ℝ) - 3) ^ 2 + ((0 : ℝ) - 0) ^ 2 = 2 ^ 2 by norm_num,
      Real.sqrt_sq (by norm_num)]
    norm_num

/-! ## C10: zero weighted mass in the accum average -/

/-- Claim C10: In the `accum` method, when the weighted sum over the
intersections within the bandwidth of the chosen centre is zero, the
returned estimate is the chosen centre intersection point itself — the
branch neither fails nor falls back to the centroid estimator. -/
theorem accum_zero_mass_returns_center (inters : List (ℝ × ℝ × ℝ)) (bandwidth_m : ℝ)
    (_hne : inters ≠ [])
    (h : accum_mass inters (max 5 bandwidth_m) = 0) :
    accum_estimate inters bandwidth_m =
      ((accum_best inters (max 5 bandwidth_m)).1.1,
        (accum_best inters (max 5 bandwidth_m)).1.2.1) := by
  have h' := h
  simp only [accum_mass] at h'
  simp only [accum_estimate]
  rw [h', if_neg (lt_irrefl (0 : ℝ))]

/-- A single zero-weight intersection point (e.g. a tangent crossing). -/
noncomputable def demo_inters : List (ℝ × ℝ × ℝ) := [(0, 0, 0)]

theorem accum_zero_mass_witness :
    demo_inters ≠ [] ∧ accum_mass demo_inters (max 5 150) = 0 ∧
      accum_estimate demo_inters 150 =
        ((accum_best demo_inters (max 5 150)).1.1,
          (accum_best demo_inters (max 5 150)).1.2.1) := by
  have hne : demo_inters ≠ [] := by simp [demo_inters]
  have hbw : max (5 : ℝ) 150 = 150 := max_eq_right (by norm_num)
  have hm : accum_mass demo_inters (max 5 150) = 0 := by
    rw [hbw]
    norm_num [accum_mass, accum_terms, accum_best, accum_score, demo_inters,
      Real.sqrt_zero, ite_self]
  exact ⟨hne, hm, accum_zero_mass_returns_center demo_inters 150 hne hm⟩

/-! ## C2: non-null results for non-empty observation sets -/

lemma obs_weight_pos (ple rssi : ℝ) : 0 < obs_weight ple rssi := by
  simp only [obs_weight]
  exact Real.rpow_pos_of_pos (Real.rpow_pos_of_pos (by norm_num) _) _

lemma centroid_weight_sum_pos (logs : List Obs) (ple : ℝ) (h : logs ≠ []) :
    0 < centroid_weight_sum logs ple := by
  simp only [centroid_weight_sum]
  apply List.sum_pos
  · intro a ha
    simp only [List.mem_map] at ha
    obtain ⟨log, -, rfl⟩ := ha
    exact obs_weight_pos _ _
  · simpa using h

lemma centroid_estimate_eq_some (logs : List Obs) (ple : ℝ) (h : logs ≠ []) :
    ∃ p, centroid_estimate logs ple = some p := by
  have hpos := centroid_weight_sum_pos logs ple h
  simp only [centroid_estimate]
  exact ⟨_, if_pos hpos⟩

lemma cell_estimate_eq_some (method : String) (logs : List Obs) (ple rr rd bw : ℝ)
    (h : logs ≠ []) : ∃ p, cell_estimate method logs ple rr rd bw = some p := by
  have h0 : ¬ logs.length = 0 := by simpa [List.length_eq_zero] using h
  simp only [cell_estimate]
  rw [if_neg h0]
  by_cases hc : method = "centroid" ∨ logs.length < 2
  · rw [if_pos hc]
    exact centroid_estimate_eq_some logs ple h
  · rw [if_neg hc]
    set lat0 := (logs.map Obs.lat).sum / (logs.length : ℝ) with hlat0
    set lon0 := (logs.map Obs.lon).sum / (logs.length : ℝ) with hlon0
    set pts := build_pts logs ple rr rd lat0 lon0 with hpts
    by_cases hw : method = "wls"
    · rw [if_pos hw]
      cases hwls : wls_trilateration pts 20 0.1 with
      | none => exact centroid_estimate_eq_some logs ple h
      | some est => exact ⟨_, rfl⟩
    · rw [if_neg hw]
      by_cases hr : method = "robust"
      · rw [if_pos hr]
        cases hrob : robust_trilateration pts 3.0 with
        | none => exact centroid_estimate_eq_some logs ple h
        | some est => exact ⟨_, rfl⟩
      · rw [if_neg hr]
        by_cases hlen : (all_pair_intersections pts).length = 0
        · rw [if_pos hlen]
          exact centroid_estimate_eq_some logs ple h
        · rw [if_neg hlen]
          exact ⟨_, rfl⟩

/-- Claim C2: For every transmitter with at least one usable observation, the
engine's result has non-null coordinates under every `method` string: the
centroid weight sum is strictly positive for every non-empty observation
list, the per-transmitter estimate is `some` pair, and a `(None, None)`
result arises only from an empty observation list. -/
theorem nonempty_obs_never_null (method : String) (logs : List Obs)
    (ple rr rd bw : ℝ) (h : logs ≠ []) :
    0 < centroid_weight_sum logs ple ∧
      (∃ p, cell_estimate method logs ple rr rd bw = some p) ∧
      cell_estimate method ([] : List Obs) ple rr rd bw = none :=
  ⟨centroid_weight_sum_pos logs ple h,
    cell_estimate_eq_some method logs ple rr rd bw h, rfl⟩

theorem nonempty_obs_never_null_witness :
    demo_obs ≠ [] ∧
      (0 < centroid_weight_sum demo_obs 2 ∧
        (∃ p, cell_estimate "wls" demo_obs 2 (-40) 1 150 = some p) ∧
        cell_estimate "wls" ([] : List Obs) 2 (-40) 1 150 = none) := by
  have h : demo_obs ≠ [] := by simp [demo_obs]
  exact ⟨h, nonempty_obs_never_null "wls" demo_obs 2 (-40) 1 150 h⟩

/-! ## C1: dispatch of unknown method strings -/

lemma cell_estimate_unknown_eq_accum (method : String) (logs : List Obs)
    (ple rr rd bw : ℝ)
    (hc : method ≠ "centroid") (hw : method ≠ "wls") (hr : method ≠ "robust") :
    cell_estimate method logs ple rr rd bw = cell_estimate "accum" logs ple rr rd bw := by
  simp only [cell_estimate]
  by_cases h0 : logs.length = 0
  · rw [if_pos h0, if_pos h0]
  · rw [if_neg h0, if_neg h0]
    by_cases h2 : logs.length < 2
    · rw [if_pos (Or.inr h2), if_pos (Or.inr h2)]
    · have hc1 : ¬ (method = "centroid" ∨ logs.length < 2) := by
        rintro (hx | hx)
        · exact hc hx
        · exact h2 hx
      have hc2 : ¬ (("accum" : String) = "centroid" ∨ logs.length < 2) := by
        rintro (hx | hx)
        · exact absurd hx (by decide)
        · exact h2 hx
      rw [if_neg hc1, if_neg hc2, if_neg hw, if_neg hr,
        if_neg (show ¬ ("accum" : String) = "wls" by decide),
        if_neg (show ¬ ("accum" : String) = "robust" by decide)]

/-- Claim C1 (amended): Unknown `method` values are *not* rejected: the
engine has no configuration-error path.  Every `method` string outside
{"centroid", "wls", "robust"} is handled exactly like `"accum"` (the
dispatch falls through to the intersection-voting code, or to the centroid
for fewer than 2 observations), and the request completes with a normal
non-null result whenever observations exist. -/
theorem unknown_method_silently_accum (method : String) (logs : List Obs)
    (ple rr rd bw : ℝ)
    (hc : method ≠ "centroid") (hw : method ≠ "wls") (hr : method ≠ "robust")
    (h : logs ≠ []) :
    cell_estimate method logs ple rr rd bw = cell_estimate "accum" logs ple rr rd bw ∧
      ∃ p, cell_estimate method logs ple rr rd bw = some p :=
  ⟨cell_estimate_unknown_eq_accum method logs ple rr rd bw hc hw hr,
    cell_estimate_eq_some method logs ple rr rd bw h⟩

theorem unknown_method_silently_accum_witness :
    (("bogus" : String) ≠ "centroid" ∧ ("bogus" : String) ≠ "wls" ∧
        ("bogus" : String) ≠ "robust" ∧ demo_obs ≠ []) ∧
      cell_estimate "bogus" demo_obs 2 (-40) 1 150 =
          cell_estimate "accum" demo_obs 2 (-40) 1 150 ∧
        ∃ p, cell_estimate "bogus" demo_obs 2 (-40) 1 150 = some p := by
  have h : demo_obs ≠ [] := by simp [demo_obs]
  exact ⟨⟨by decide, by decide, by decide, h⟩,
    unknown_method_silently_accum "bogus" demo_obs 2 (-40) 1 150
      (by decide) (by decide) (by decide) h⟩

/-- Claim C1 counterexample: A concrete estimation request with
`method = "bogus"` (not in {wls, robust, accum, centroid}) is *not*
rejected: it produces exactly the result the `"accum"` dispatch produces,
and that result is a normal non-null estimate — the engine silently
defaults instead of aborting with a configuration error. -/
theorem unknown_method_counterexample :
    cell_estimate "bogus" demo_obs 2 (-40) 1 150 =
        cell_estimate "accum" demo_obs 2 (-40) 1 150 ∧
      cell_estimate "bogus" demo_obs 2 (-40) 1 150 ≠ none := by
  have h : demo_obs ≠ [] := by simp [demo_obs]
  have heq := cell_estimate_unknown_eq_accum "bogus" demo_obs 2 (-40) 1 150
    (by decide) (by decide) (by decide)
  obtain ⟨p, hp⟩ := cell_estimate_eq_some "bogus" demo_obs 2 (-40) 1 150 h
  refine ⟨heq, ?_⟩
  rw [hp]
  simp

end CellFinder
